import Mathlib

/-!
Verification development for the Mene Portal memory and truth-verification core.

The definitions below are a shallow embedding of:
* `src/backend/memory/memory-system.js` (class `MemorySystem`): per-agent memory
  branches, the shared memory pool, significance-based promotion, and
  relevance search over shared memory;
* the Veritas sync memory module (class `VeritasSyncMemory`): claim
  verification with a truth ledger keyed by a content hash, confidence
  aggregation, status thresholds, and the sync-data size trimming step.

Conventions: JavaScript numbers used for confidences are modelled as `ℚ`
(the source arithmetic on the relevant values is exact decimal arithmetic);
timestamps (`new Date()` / ISO strings) are modelled as abstract `Nat`
instants supplied by the caller; `Map` objects are modelled as association
lists keyed by their string key; thrown exceptions are modelled with
`Except` / an explicit exception field.  File persistence (`saveBranch`,
`saveSharedMemory`, `saveTruthDatabase`) only mirrors the in-memory state to
disk and is not modelled.
-/

namespace MenePortal

/-! ### Memory system data model (`memory-system.js`) -/

/-- A memory object as passed to `addMemory` before enrichment: a kind tag
(`type` in the source), the conversation `user`/`assistant` strings, the
`important` flag, and a timestamp. -/
structure MemoryInput where
  rtype : String
  user : String
  assistant : String
  important : Bool
  timestamp : Nat
deriving DecidableEq

/-- The enriched memory record stored in a branch (`enrichedMemory` in
`MemorySystem.addMemory`): the input fields plus the owning agent's id and
display name. -/
structure MemoryRecord where
  rtype : String
  user : String
  assistant : String
  important : Bool
  timestamp : Nat
  agentId : String
  agentName : String
deriving DecidableEq

/-- The enrichment step of `MemorySystem.addMemory`: spread the input memory
and add `agentId` and `agentName` taken from the owning branch. -/
def enrich (m : MemoryInput) (agentId agentName : String) : MemoryRecord :=
  { rtype := m.rtype, user := m.user, assistant := m.assistant,
    important := m.important, timestamp := m.timestamp,
    agentId := agentId, agentName := agentName }

/-- An entry of the shared memory pool: the copied enriched record plus the
`source` agent id recorded at promotion time. -/
structure SharedEntry where
  record : MemoryRecord
  source : String
deriving DecidableEq

/-- A per-agent memory branch (`createBranch` object literal): id, display
name, ordered list of memories and the two stat counters. -/
structure Branch where
  agentId : String
  agentName : String
  memories : List MemoryRecord
  totalMemories : Nat
  totalConversations : Nat
deriving DecidableEq

/-- The in-memory state of `MemorySystem`: the `branches` map (modelled as a
list keyed by `agentId`, in insertion order, as a JS `Map` iterates) and the
`sharedMemory` array. -/
structure MemState where
  branches : List Branch
  sharedMemory : List SharedEntry
deriving DecidableEq

/-- `Map.get` on the branches map. -/
def lookupBranch (s : MemState) (agentId : String) : Option Branch :=
  s.branches.find? (fun b => b.agentId == agentId)

/-- `Map.set` on the branches map: replace the entry with the same key in
place if present (a JS `Map.set` keeps the original insertion position),
otherwise append. -/
def setBranch (bs : List Branch) (b : Branch) : List Branch :=
  if bs.any (fun x => x.agentId == b.agentId) then
    bs.map (fun x => if x.agentId == b.agentId then b else x)
  else bs ++ [b]

/-- `MemorySystem.createBranch(agentId, agentName)`: build a fresh empty
branch and `Map.set` it.  Note the source performs no duplicate check: an
existing branch with the same id is overwritten. -/
def createBranch (s : MemState) (agentId agentName : String) : MemState :=
  let fresh : Branch :=
    { agentId := agentId, agentName := agentName, memories := [],
      totalMemories := 0, totalConversations := 0 }
  { s with branches := setBranch s.branches fresh }

/-- `MemorySystem.deleteBranch(agentId)`: `Map.delete` on the branches map.
The shared memory pool is untouched. -/
def deleteBranch (s : MemState) (agentId : String) : MemState :=
  { s with branches := s.branches.filter (fun b => !(b.agentId == agentId)) }

/-- `MemorySystem.isSignificantMemory(memory)`: a conversation memory is
significant iff `user.length + assistant.length > 100`; any other kind is
significant iff its `important` flag is set. -/
def isSignificantMemory (m : MemoryRecord) : Bool :=
  if m.rtype == "conversation" then
    decide (100 < m.user.length + m.assistant.length)
  else m.important

/-- `MemorySystem.addMemory(agentId, memory)`: throws when no branch exists;
otherwise enriches the memory, appends it to the branch, bumps the counters,
and additionally pushes a copy onto the shared pool when
`isSignificantMemory` holds. -/
def addMemory (s : MemState) (agentId : String) (m : MemoryInput) :
    Except String MemState :=
  match lookupBranch s agentId with
  | none => .error ("Memory branch not found for agent: " ++ agentId)
  | some branch =>
    let enriched := enrich m agentId branch.agentName
    let branch' : Branch :=
      { branch with
        memories := branch.memories ++ [enriched],
        totalMemories := branch.totalMemories + 1,
        totalConversations := branch.totalConversations +
          (if m.rtype == "conversation" then 1 else 0) }
    let s' : MemState := { s with branches := setBranch s.branches branch' }
    if isSignificantMemory enriched then
      .ok { s' with
            sharedMemory := s'.sharedMemory ++ [{ record := enriched, source := agentId }] }
    else
      .ok s'

/-! ### Shared-memory relevance search (`getRelevantSharedMemories`) -/

/-- Substring containment on character lists, modelling JavaScript
`String.prototype.includes`. -/
def containsSub (hay needle : List Char) : Bool :=
  hay.tails.any (fun t => needle.isPrefixOf t)

/-- The serialization `JSON.stringify(memory)` of a shared entry, modelled
as a concatenation of all its fields with separators. -/
def serializeEntry (e : SharedEntry) : String :=
  e.record.rtype ++ "|" ++ e.record.user ++ "|" ++ e.record.assistant ++ "|" ++
    (if e.record.important then "true" else "false") ++ "|" ++
    toString e.record.timestamp ++ "|" ++ e.record.agentId ++ "|" ++
    e.record.agentName ++ "|" ++ e.source

/-- JavaScript `toLowerCase()`, character-wise (the strings involved are
ASCII). -/
def lowerChars (l : List Char) : List Char := l.map Char.toLower

/-- JavaScript `split(' ')` over the character sequence: split on every
single space, keeping empty fragments. -/
def splitOnSpace : List Char → List (List Char)
  | [] => [[]]
  | c :: rest =>
    if c = ' ' then [] :: splitOnSpace rest
    else
      match splitOnSpace rest with
      | [] => [[c]]
      | w :: ws => (c :: w) :: ws

/-- The keyword list of a query: lower-case it, split on single spaces, and
keep only words of length `> 3` (`query.toLowerCase().split(' ').filter(w =>
w.length > 3)`). -/
def keywordsOf (query : String) : List (List Char) :=
  (splitOnSpace (lowerChars query.data)).filter (fun w => decide (3 < w.length))

/-- Relevance score of one shared entry: the number of query keywords that
occur (case-insensitively) inside the serialized entry — the source bumps
`score` once per keyword found. -/
def scoreEntry (query : String) (e : SharedEntry) : Nat :=
  ((keywordsOf query).filter
    (fun k => containsSub (lowerChars (serializeEntry e).data) k)).length

/-- The sort comparator of `getRelevantSharedMemories` as a `≤`-style Bool
relation: higher score first; on equal scores, larger (more recent)
timestamp first.  `entryLE a b` holds iff the source comparator orders `a`
at or before `b`. -/
def entryLE (a b : Nat × SharedEntry) : Bool :=
  decide (b.1 < a.1) ||
    (decide (a.1 = b.1) && decide (b.2.record.timestamp ≤ a.2.record.timestamp))

/-- `MemorySystem.getRelevantSharedMemories(query, limit)`: score every
shared entry, drop zero scores, sort by (score desc, timestamp desc) with a
stable sort, truncate to `limit`, and return the entries. -/
def getRelevantSharedMemories (shared : List SharedEntry) (query : String)
    (limit : Nat) : List SharedEntry :=
  let scored := shared.map (fun memory => (scoreEntry query memory, memory))
  let relevant := scored.filter (fun p => decide (0 < p.1))
  ((relevant.mergeSort entryLE).take limit).map (fun p => p.2)

/-! ### Veritas sync memory (`VeritasSyncMemory`) -/

/-- One evidence source's contribution pushed onto `verification.sources`:
source name, evidence summary, source-local confidence, and the
source-type tag (`type` in the source, a plain string). -/
structure EvidenceItem where
  sourceName : String
  evidence : String
  confidence : ℚ
  stype : String
deriving DecidableEq

/-- `VeritasSyncMemory.getSourceWeight(sourceType)`: the fixed string-keyed
weight table, with a default weight of `1/2` for any unknown tag. -/
def getSourceWeight (sourceType : String) : ℚ :=
  if sourceType == "historical_reference" then 8/10
  else if sourceType == "memory_reference" then 9/10
  else if sourceType == "agent_research" then 7/10
  else if sourceType == "agent_critical" then 6/10
  else if sourceType == "external_verification" then 7/10
  else if sourceType == "browser_verification" then 5/10
  else 1/2

/-- `VeritasSyncMemory.calculateFinalConfidence(verification)`: `0` when no
sources were gathered, otherwise the weighted mean of the sources'
confidences with `getSourceWeight` weights (guarded by `totalWeight > 0`). -/
def calculateFinalConfidence (sources : List EvidenceItem) : ℚ :=
  if sources.isEmpty then 0
  else
    let totalWeight := (sources.map (fun s => getSourceWeight s.stype)).sum
    let weightedSum := (sources.map (fun s => s.confidence * getSourceWeight s.stype)).sum
    if 0 < totalWeight then weightedSum / totalWeight else 0

/-- The `verificationThresholds` constants of the constructor. -/
structure Thresholds where
  high_confidence : ℚ
  medium_confidence : ℚ
  low_confidence : ℚ
  requires_verification : ℚ

/-- `this.verificationThresholds`. -/
def verificationThresholds : Thresholds :=
  { high_confidence := 9/10, medium_confidence := 7/10,
    low_confidence := 5/10, requires_verification := 3/10 }

/-- `VeritasSyncMemory.determineVerificationStatus(confidence)`. -/
def determineVerificationStatus (confidence : ℚ) : String :=
  if verificationThresholds.high_confidence ≤ confidence then "verified_high"
  else if verificationThresholds.medium_confidence ≤ confidence then "verified_medium"
  else if verificationThresholds.low_confidence ≤ confidence then "verified_low"
  else "unverified"

/-- A verification record as built by `verifyClaim`: identity hash, claim,
serialized context, gathered sources, aggregate confidence, status, start
instant, optional completion instant and optional exception message. -/
structure VerificationRecord where
  vid : String
  claim : String
  context : String
  sources : List EvidenceItem
  confidence : ℚ
  status : String
  startedAt : Nat
  completedAt : Option Nat
  errMsg : Option String
deriving DecidableEq

/-- The truth ledger `this.truthDatabase`: a map from identity hash to
record, modelled as an association list in insertion order. -/
abbrev TruthLedger : Type := List (String × VerificationRecord)

/-- `truthDatabase.get`/`has` combined: the record stored under a hash. -/
def lookupLedger (db : TruthLedger) (k : String) : Option VerificationRecord :=
  (db.find? (fun p => p.1 == k)).map (fun p => p.2)

/-- Number of ledger entries stored under a hash. -/
def countKey (db : TruthLedger) (k : String) : Nat :=
  (db.filter (fun p => p.1 == k)).length

/-- The combined outcome of the evidence-gathering steps 2–4 of
`verifyClaim` (`verifyAgainstInternal`, `verifyWithAgents`,
`verifyWithBrowser`): the evidence items accumulated onto
`verification.sources`, plus the message of an exception if one escaped
those steps (`exception = none` means the `try` block ran to completion). -/
structure GatherResult where
  sources : List EvidenceItem
  exception : Option String
deriving DecidableEq

/-- The result of one `verifyClaim` call: the returned record, the truth
ledger afterwards, and whether the call returned a cached record (the early
`truthDatabase.has(verificationId)` branch) instead of gathering
evidence. -/
structure VerifyOutcome where
  record : VerificationRecord
  ledger : TruthLedger
  usedCache : Bool
deriving DecidableEq

/-- `VeritasSyncMemory.verifyClaim(claim, context)`.  `hash` abstracts
`generateHash` (sha256 prefix — any deterministic string hash), applied to
`claim + JSON.stringify(context)` where `ctx` is the already-serialized
context.  `gather` abstracts the effectful evidence-gathering steps 2–4.
`t0`/`t1` are the start and completion instants.  On a cache hit the stored
record is returned unchanged; on normal completion the sealed record is
stored in the ledger; on an exception the record is sealed as `error` with
the message retained and is NOT stored. -/
def verifyClaim (hash : String → String)
    (gather : String → String → GatherResult)
    (db : TruthLedger) (claim ctx : String) (t0 t1 : Nat) : VerifyOutcome :=
  let verificationId := hash (claim ++ ctx)
  match lookupLedger db verificationId with
  | some existing => { record := existing, ledger := db, usedCache := true }
  | none =>
    let base : VerificationRecord :=
      { vid := verificationId, claim := claim, context := ctx, sources := [],
        confidence := 0, status := "verifying", startedAt := t0,
        completedAt := none, errMsg := none }
    let g := gather claim ctx
    match g.exception with
    | none =>
      let conf := calculateFinalConfidence g.sources
      let sealedRec : VerificationRecord :=
        { base with
          sources := g.sources, confidence := conf,
          status := determineVerificationStatus conf, completedAt := some t1 }
      { record := sealedRec, ledger := db ++ [(verificationId, sealedRec)],
        usedCache := false }
    | some msg =>
      let sealedRec : VerificationRecord :=
        { base with
          sources := g.sources, status := "error",
          errMsg := some msg, completedAt := some t1 }
      { record := sealedRec, ledger := db, usedCache := false }

/-! ### Sync planner (`prepareSyncData`) -/

/-- The consolidated memory snapshot handed to `prepareSyncData`: the four
categories the source reads (`verified_facts`, `recent_conversations`,
`key_insights`, `agent_preferences`). -/
structure MemorySnapshot where
  verified_facts : List String
  recent_conversations : List String
  key_insights : List String
  agent_preferences : List (String × String)
deriving DecidableEq

/-- `JSON.stringify(memoryData).length`, modelled as a byte count: each
string contributes its length plus quoting/comma overhead, each category
contributes bracket overhead, plus fixed overhead for the four keys. -/
def serializedSize (m : MemorySnapshot) : Nat :=
  ((m.verified_facts.map (fun s => s.length + 3)).sum + 2) +
  ((m.recent_conversations.map (fun s => s.length + 3)).sum + 2) +
  ((m.key_insights.map (fun s => s.length + 3)).sum + 2) +
  ((m.agent_preferences.map (fun p => p.1.length + p.2.length + 6)).sum + 2) +
  80

/-- `VeritasSyncMemory.prepareSyncData(memoryData, contextWindow)`: pass the
snapshot through unchanged when its serialized size fits the window;
otherwise return the single fixed prioritized truncation (top-5 facts,
top-3 conversations, top-3 insights, preferences unfiltered) — with no
further size check on the result. -/
def prepareSyncData (memoryData : MemorySnapshot) (contextWindow : Nat) :
    MemorySnapshot :=
  if serializedSize memoryData ≤ contextWindow then memoryData
  else
    { verified_facts := memoryData.verified_facts.take 5,
      recent_conversations := memoryData.recent_conversations.take 3,
      key_insights := memoryData.key_insights.take 3,
      agent_preferences := memoryData.agent_preferences }

/-! ### Concrete scenarios and spec-side definitions used by the theorems -/

/-- The fresh store: no branches, empty shared pool. -/
def emptyMem : MemState := { branches := [], sharedMemory := [] }

/-- Driver for a sequence of `addMemory` calls for one agent: fold the
calls, keeping the previous state when a call throws (no call in the
scenarios below throws). -/
def appendRun (s : MemState) (agentId : String) : List MemoryInput → MemState
  | [] => s
  | m :: ms =>
    appendRun (match addMemory s agentId m with
      | .ok st' => st'
      | .error _ => s) agentId ms

/-- The invariant that every branch other than agent `a`'s own carries no
record attributable to `a`. -/
def branchInvariant (a : String) (st : MemState) : Prop :=
  ∀ b ∈ st.branches, b.agentId ≠ a → ∀ r ∈ b.memories, r.agentId ≠ a

/-- A conversation record with 101 combined request+response characters. -/
def longConv : MemoryInput :=
  { rtype := "conversation", user := String.mk (List.replicate 50 'a'),
    assistant := String.mk (List.replicate 51 'b'), important := false,
    timestamp := 0 }

/-- A conversation record with exactly 100 combined characters. -/
def conv100 : MemoryInput :=
  { rtype := "conversation", user := String.mk (List.replicate 50 'a'),
    assistant := String.mk (List.replicate 50 'b'), important := false,
    timestamp := 0 }

/-- A short conversation record explicitly flagged important. -/
def shortImp : MemoryInput :=
  { rtype := "conversation", user := "", assistant := "hey",
    important := true, timestamp := 0 }

/-- State after `createBranch("a")` and one significant `addMemory`. -/
def c1Mid : MemState :=
  (addMemory (createBranch emptyMem "a" "Agent A") "a" longConv).toOption.getD emptyMem

/-- The singleton branch used in the promotion scenarios. -/
def c6Branch : Branch :=
  { agentId := "a", agentName := "Agent A", memories := [],
    totalMemories := 0, totalConversations := 0 }

/-- A store holding exactly the branch `c6Branch` and an empty pool. -/
def c6State : MemState := { branches := [c6Branch], sharedMemory := [] }

/-- `c6State` after adding the short important conversation. -/
def c6ImpMid : MemState := (addMemory c6State "a" shortImp).toOption.getD emptyMem

/-- `c6State` after adding the 100-character conversation. -/
def c6Mid100 : MemState := (addMemory c6State "a" conv100).toOption.getD emptyMem

/-- `c6State` after adding the 101-character conversation. -/
def c6Mid101 : MemState := (addMemory c6State "a" longConv).toOption.getD emptyMem

/-- A store whose branch `"a"` holds one record (for the duplicate-create
scenario). -/
def c9S1 : MemState :=
  (addMemory (createBranch emptyMem "a" "Agent A") "a" shortImp).toOption.getD emptyMem

/-- A concrete deterministic hash for the verification scenarios. -/
def idHash : String → String := fun s => s

/-- An evidence-gathering run that completes with no evidence. -/
def gatherNone : String → String → GatherResult :=
  fun _ _ => { sources := [], exception := none }

/-- An evidence-gathering run that raises an exception. -/
def gatherBoom : String → String → GatherResult :=
  fun _ _ => { sources := [], exception := some "boom" }

/-- Modelled from the spec: the fixed per-source-type weight table of §4.3
step 5 (`historical_reference 0.8, memory_reference 0.9, agent_research
0.7, agent_critical 0.6, external_verification 0.7, browser_verification
0.5`), with no entry for any other tag; used to compare the source's
`getSourceWeight` against the spec's table. -/
def tableWeight (sourceType : String) : Option ℚ :=
  if sourceType == "historical_reference" then some (8/10)
  else if sourceType == "memory_reference" then some (9/10)
  else if sourceType == "agent_research" then some (7/10)
  else if sourceType == "agent_critical" then some (6/10)
  else if sourceType == "external_verification" then some (7/10)
  else if sourceType == "browser_verification" then some (5/10)
  else none

/-- The `memory_reference` evidence item of the worked aggregation example. -/
def exMem : EvidenceItem :=
  { sourceName := "AI Drive Knowledge", evidence := "match",
    confidence := 9/10, stype := "memory_reference" }

/-- The `agent_critical` evidence item of the worked aggregation example. -/
def exCrit : EvidenceItem :=
  { sourceName := "Agent Network - Critical Analysis", evidence := "critique",
    confidence := 6/10, stype := "agent_critical" }

/-- A shared entry matching the query of the search scenario. -/
def wE1 : SharedEntry :=
  { record := { rtype := "conversation", user := "hello world test",
                assistant := "okay", important := false, timestamp := 5,
                agentId := "a", agentName := "Agent A" },
    source := "a" }

/-- A shared entry matching no keyword of the search scenario. -/
def wE2 : SharedEntry :=
  { record := { rtype := "conversation", user := "nothing here",
                assistant := "okay", important := false, timestamp := 9,
                agentId := "b", agentName := "Agent B" },
    source := "b" }

/-- A 300-character fact string. -/
def bigFact : String := String.mk (List.replicate 300 'f')

/-- A snapshot of six long facts, far over any small budget. -/
def c8Snap : MemorySnapshot :=
  { verified_facts := List.replicate 6 bigFact, recent_conversations := [],
    key_insights := [], agent_preferences := [] }

/-- A small snapshot that fits a generous budget. -/
def c8SmallSnap : MemorySnapshot :=
  { verified_facts := ["water boils"], recent_conversations := [],
    key_insights := [], agent_preferences := [] }

/-! ### Helper lemmas -/

/-- Every source-type weight of the source table is at least `1/2`. -/
theorem half_le_getSourceWeight (s : String) : (1 : ℚ)/2 ≤ getSourceWeight s := by
  unfold getSourceWeight
  split_ifs <;> norm_num

/-- On tags the spec's table covers, the source's weight lookup agrees with
the table. -/
theorem getSourceWeight_eq_table (s : String) (h : (tableWeight s).isSome) :
    getSourceWeight s = (tableWeight s).getD 0 := by
  unfold getSourceWeight tableWeight at *
  split_ifs at h ⊢ <;> simp_all

/-- The total weight of a non-empty evidence list is positive. -/
theorem totalWeight_pos (items : List EvidenceItem) (h : items ≠ []) :
    0 < (items.map (fun s => getSourceWeight s.stype)).sum := by
  obtain ⟨x, xs, rfl⟩ := List.exists_cons_of_ne_nil h
  have hx : (1 : ℚ)/2 ≤ getSourceWeight x.stype := half_le_getSourceWeight _
  have hxs : 0 ≤ (xs.map (fun s => getSourceWeight s.stype)).sum := by
    apply List.sum_nonneg
    intro y hy
    obtain ⟨z, _, rfl⟩ := List.mem_map.mp hy
    exact le_trans (by norm_num) (half_le_getSourceWeight _)
  simp only [List.map_cons, List.sum_cons]
  linarith

/-- A hash with no ledger entry has no `find?` hit. -/
theorem find?_ledger_none (db : TruthLedger) (vid : String)
    (h : lookupLedger db vid = none) : db.find? (fun p => p.1 == vid) = none := by
  unfold lookupLedger at h
  exact Option.map_eq_none'.mp h

/-- Appending a record under a previously absent hash makes it the lookup
result. -/
theorem lookupLedger_append_self (db : TruthLedger) (vid : String)
    (r : VerificationRecord) (h : lookupLedger db vid = none) :
    lookupLedger (db ++ [(vid, r)]) vid = some r := by
  unfold lookupLedger
  rw [List.find?_append, find?_ledger_none db vid h]
  simp

/-- Appending a record under a previously absent hash yields exactly one
entry for that hash. -/
theorem countKey_append_self (db : TruthLedger) (vid : String)
    (r : VerificationRecord) (h : lookupLedger db vid = none) :
    countKey (db ++ [(vid, r)]) vid = 1 := by
  unfold countKey
  rw [List.filter_append]
  have hnil : db.filter (fun p => p.1 == vid) = [] := by
    apply List.filter_eq_nil_iff.mpr
    intro a ha
    simpa using List.find?_eq_none.mp (find?_ledger_none db vid h) a ha
  rw [hnil]
  simp

/-! ### Claim theorems -/

/-- C4 (confirmed): for every evidence list whose type tags are all in the
spec's fixed table, the aggregate confidence is the weighted mean of the
items' confidences with the table weights, and is `0` for the empty list;
in particular the worked example `[(memory_reference, 0.9),
(agent_critical, 0.6)]` aggregates to `0.78`. -/
theorem calculateFinalConfidence_weighted_mean (items : List EvidenceItem)
    (h : ∀ e ∈ items, (tableWeight e.stype).isSome) :
    (items = [] → calculateFinalConfidence items = 0) ∧
    (items ≠ [] → calculateFinalConfidence items =
      (items.map (fun e => e.confidence * (tableWeight e.stype).getD 0)).sum /
      (items.map (fun e => (tableWeight e.stype).getD 0)).sum) ∧
    calculateFinalConfidence [exMem, exCrit] = 78/100 := by
  refine ⟨fun hnil => by simp [hnil, calculateFinalConfidence], fun hne => ?_, ?_⟩
  · have hpos := totalWeight_pos items hne
    have hmapw : items.map (fun e => getSourceWeight e.stype) =
        items.map (fun e => (tableWeight e.stype).getD 0) :=
      List.map_congr_left (fun e he => getSourceWeight_eq_table e.stype (h e he))
    have hmapc : items.map (fun e => e.confidence * getSourceWeight e.stype) =
        items.map (fun e => e.confidence * (tableWeight e.stype).getD 0) :=
      List.map_congr_left (fun e he => by
        rw [getSourceWeight_eq_table e.stype (h e he)])
    unfold calculateFinalConfidence
    rw [if_neg (by simp [List.isEmpty_eq_false.mpr hne]), if_pos hpos, hmapw, hmapc]
  · have h1 : getSourceWeight "memory_reference" = 9/10 := rfl
    have h2 : getSourceWeight "agent_critical" = 6/10 := rfl
    simp [calculateFinalConfidence, exMem, exCrit, h1, h2]
    norm_num

/-- C4 witness: the weighted-mean characterization applied to the worked
two-item example. -/
theorem calculateFinalConfidence_weighted_mean_witness :
    calculateFinalConfidence [exMem, exCrit] =
      (([exMem, exCrit].map (fun e => e.confidence * (tableWeight e.stype).getD 0)).sum /
       ([exMem, exCrit].map (fun e => (tableWeight e.stype).getD 0)).sum) :=
  (calculateFinalConfidence_weighted_mean [exMem, exCrit]
    (by decide)).2.1 (by decide)

/-- C5 (confirmed): the status thresholds are `≥ 0.9` verified_high,
`≥ 0.7` verified_medium, `≥ 0.5` verified_low, otherwise unverified, and
`0.78` maps to `verified_medium`. -/
theorem determineVerificationStatus_thresholds (c : ℚ) :
    ((9:ℚ)/10 ≤ c → determineVerificationStatus c = "verified_high") ∧
    ((7:ℚ)/10 ≤ c ∧ c < 9/10 → determineVerificationStatus c = "verified_medium") ∧
    ((5:ℚ)/10 ≤ c ∧ c < 7/10 → determineVerificationStatus c = "verified_low") ∧
    (c < (5:ℚ)/10 → determineVerificationStatus c = "unverified") ∧
    determineVerificationStatus (78/100) = "verified_medium" := by
  unfold determineVerificationStatus verificationThresholds
  refine ⟨fun h => ?_, fun h => ?_, fun h => ?_, fun h => ?_, by norm_num⟩
  · rw [if_pos (by simpa using h)]
  · rw [if_neg (by simp only []; linarith [h.2]), if_pos (by simpa using h.1)]
  · rw [if_neg (by simp only []; linarith [h.2]),
      if_neg (by simp only []; linarith [h.2]), if_pos (by simpa using h.1)]
  · rw [if_neg (by simp only []; linarith), if_neg (by simp only []; linarith),
      if_neg (by simp only []; linarith)]

/-- C5 witness: the medium band applied at the concrete aggregate `0.78`. -/
theorem determineVerificationStatus_thresholds_witness :
    determineVerificationStatus (78/100) = "verified_medium" :=
  (determineVerificationStatus_thresholds (78/100)).2.1 (by norm_num)

/-- C2 (corrected): submitting the same (claim, context) twice is idempotent
provided the first submission's evidence gathering raises no exception: the
second call returns the very record the first sealed, via the cache branch
(no new evidence gathered), the ledger is unchanged by the second call, and
it holds exactly one entry for that hash. -/
theorem verifyClaim_idempotent_of_ok (hash : String → String)
    (gather : String → String → GatherResult) (db : TruthLedger)
    (claim ctx : String) (t0 t1 t2 t3 : Nat)
    (hfresh : lookupLedger db (hash (claim ++ ctx)) = none)
    (hok : (gather claim ctx).exception = none) :
    let o1 := verifyClaim hash gather db claim ctx t0 t1
    let o2 := verifyClaim hash gather o1.ledger claim ctx t2 t3
    o2.record = o1.record ∧ o2.usedCache = true ∧ o2.ledger = o1.ledger ∧
      countKey o1.ledger (hash (claim ++ ctx)) = 1 := by
  simp only [verifyClaim, hfresh, hok]
  rw [lookupLedger_append_self db _ _ hfresh]
  refine ⟨rfl, rfl, rfl, countKey_append_self db _ _ hfresh⟩

/-- C2 witness: the idempotence theorem applied to a concrete successful
verification run. -/
theorem verifyClaim_idempotent_of_ok_witness :
    let o1 := verifyClaim idHash gatherNone [] "water boils" "ctx" 0 1
    let o2 := verifyClaim idHash gatherNone o1.ledger "water boils" "ctx" 2 3
    o2.record = o1.record ∧ o2.usedCache = true ∧ o2.ledger = o1.ledger ∧
      countKey o1.ledger (idHash ("water boils" ++ "ctx")) = 1 :=
  verifyClaim_idempotent_of_ok idHash gatherNone [] "water boils" "ctx"
    0 1 2 3 rfl rfl

/-- C2 counterexample: when the first run raises an exception, the second
submission of the identical pair does NOT return a cached record — the
cache branch is not taken, refuting the unconditional claim. -/
theorem verifyClaim_error_not_cached_cex :
    ¬ ((verifyClaim idHash gatherBoom
        (verifyClaim idHash gatherBoom [] "c" "x" 0 1).ledger
        "c" "x" 2 3).usedCache = true) := by
  decide

/-- C3 (confirmed): if the evidence-gathering steps raise an exception, the
call still returns (never re-throws) a record sealed as `error` with the
exception message retained and a completion instant set, and the ledger is
left unchanged. -/
theorem verifyClaim_seals_error (hash : String → String)
    (gather : String → String → GatherResult) (db : TruthLedger)
    (claim ctx : String) (t0 t1 : Nat) (msg : String)
    (hfresh : lookupLedger db (hash (claim ++ ctx)) = none)
    (hex : (gather claim ctx).exception = some msg) :
    let o := verifyClaim hash gather db claim ctx t0 t1
    o.record.status = "error" ∧ o.record.errMsg = some msg ∧
      o.record.completedAt = some t1 ∧ o.ledger = db := by
  simp [verifyClaim, hfresh, hex]

/-- C3 witness: the error-sealing theorem applied to a concrete raising
run. -/
theorem verifyClaim_seals_error_witness :
    let o := verifyClaim idHash gatherBoom [] "c" "x" 0 1
    o.record.status = "error" ∧ o.record.errMsg = some "boom" ∧
      o.record.completedAt = some 1 ∧ o.ledger = [] :=
  verifyClaim_seals_error idHash gatherBoom [] "c" "x" 0 1 "boom" rfl rfl

/-- C10 (confirmed): an error-sealed record is not written to the truth
ledger — after the failing call the ledger has no entry for the record's
hash, and re-submitting the same pair runs a fresh verification instead of
hitting the cache. -/
theorem verifyClaim_error_not_persisted (hash : String → String)
    (gather : String → String → GatherResult) (db : TruthLedger)
    (claim ctx : String) (t0 t1 t2 t3 : Nat) (msg : String)
    (hfresh : lookupLedger db (hash (claim ++ ctx)) = none)
    (hex : (gather claim ctx).exception = some msg) :
    let o1 := verifyClaim hash gather db claim ctx t0 t1
    lookupLedger o1.ledger (hash (claim ++ ctx)) = none ∧
      (verifyClaim hash gather o1.ledger claim ctx t2 t3).usedCache = false := by
  simp [verifyClaim, hfresh, hex]

/-- C10 witness: the no-persistence theorem applied to a concrete raising
run. -/
theorem verifyClaim_error_not_persisted_witness :
    let o1 := verifyClaim idHash gatherBoom [] "c" "x" 0 1
    lookupLedger o1.ledger (idHash ("c" ++ "x")) = none ∧
      (verifyClaim idHash gatherBoom o1.ledger "c" "x" 2 3).usedCache = false :=
  verifyClaim_error_not_persisted idHash gatherBoom [] "c" "x" 0 1 2 3 "boom"
    rfl rfl

/-- Membership in a `setBranch` result comes from the inserted branch or the
original map. -/
theorem mem_setBranch {bs : List Branch} {b x : Branch}
    (h : x ∈ setBranch bs b) : x = b ∨ x ∈ bs := by
  unfold setBranch at h
  split at h
  · obtain ⟨y, hy, hxy⟩ := List.mem_map.mp h
    by_cases hc : y.agentId == b.agentId
    · left; rw [← hxy, if_pos hc]
    · right; rw [← hxy, if_neg hc]; exact hy
  · rcases List.mem_append.mp h with h | h
    · right; exact h
    · left; simpa using h

/-- When the key is present, the in-place replacement makes the inserted
branch the `find?` hit for its key. -/
theorem find?_map_replace (bs : List Branch) (b : Branch)
    (h : bs.any (fun x => x.agentId == b.agentId) = true) :
    (bs.map (fun x => if x.agentId == b.agentId then b else x)).find?
      (fun x => x.agentId == b.agentId) = some b := by
  induction bs with
  | nil => simp at h
  | cons y ys ih =>
    simp only [List.map_cons]
    by_cases hy : y.agentId == b.agentId
    · rw [if_pos hy]
      exact List.find?_cons_of_pos _ (beq_self_eq_true b.agentId)
    · rw [if_neg hy,
        List.find?_cons_of_neg (p := fun (x : Branch) => x.agentId == b.agentId) _ hy]
      simp only [List.any_cons, hy, Bool.false_or] at h
      exact ih h

/-- After `setBranch`, looking up the inserted branch's own key finds it. -/
theorem find?_setBranch_self (bs : List Branch) (b : Branch) :
    (setBranch bs b).find? (fun x => x.agentId == b.agentId) = some b := by
  unfold setBranch
  by_cases h : bs.any (fun x => x.agentId == b.agentId)
  · rw [if_pos h]
    exact find?_map_replace bs b h
  · rw [if_neg h, List.find?_append]
    have hnone : bs.find? (fun x => x.agentId == b.agentId) = none := by
      rw [List.find?_eq_none]
      intro x hx hpx
      exact h (List.any_eq_true.mpr ⟨x, hx, hpx⟩)
    rw [hnone]
    simp

/-- In-place replacement under one key leaves `find?` under any other key
unchanged. -/
theorem find?_map_replace_other (bs : List Branch) (b : Branch) (k : String)
    (hk : ¬ ((b.agentId == k) = true)) :
    (bs.map (fun x => if x.agentId == b.agentId then b else x)).find?
      (fun x => x.agentId == k) = bs.find? (fun x => x.agentId == k) := by
  induction bs with
  | nil => simp
  | cons y ys ih =>
    simp only [List.map_cons]
    by_cases hy : y.agentId == b.agentId
    · rw [if_pos hy]
      have hyk : ¬ ((y.agentId == k) = true) := by
        rw [beq_iff_eq] at hy ⊢
        rw [hy]
        intro hc
        exact hk (beq_iff_eq.mpr hc)
      rw [List.find?_cons_of_neg (p := fun (x : Branch) => x.agentId == k) _ hk,
        List.find?_cons_of_neg (p := fun (x : Branch) => x.agentId == k) _ hyk]
      exact ih
    · rw [if_neg hy]
      by_cases hyk : (y.agentId == k) = true
      · rw [List.find?_cons_of_pos (p := fun (x : Branch) => x.agentId == k) _ hyk,
          List.find?_cons_of_pos (p := fun (x : Branch) => x.agentId == k) _ hyk]
      · rw [List.find?_cons_of_neg (p := fun (x : Branch) => x.agentId == k) _ hyk,
          List.find?_cons_of_neg (p := fun (x : Branch) => x.agentId == k) _ hyk]
        exact ih

/-- `setBranch` leaves lookups under every other key unchanged. -/
theorem find?_setBranch_other (bs : List Branch) (b : Branch) (k : String)
    (hk : k ≠ b.agentId) :
    (setBranch bs b).find? (fun x => x.agentId == k) =
      bs.find? (fun x => x.agentId == k) := by
  have hbk : ¬ ((b.agentId == k) = true) := by
    rw [beq_iff_eq]
    exact fun hc => hk hc.symm
  unfold setBranch
  by_cases h : bs.any (fun x => x.agentId == b.agentId)
  · rw [if_pos h]
    exact find?_map_replace_other bs b k hbk
  · rw [if_neg h, List.find?_append]
    cases hf : bs.find? (fun x => x.agentId == k) with
    | some p => simp
    | none => simp [hbk]

/-- A branch found under key `a` has `agentId = a`. -/
theorem agentId_of_lookup {s : MemState} {a : String} {b : Branch}
    (hb : lookupBranch s a = some b) : b.agentId = a := by
  unfold lookupBranch at hb
  exact beq_iff_eq.mp
    (List.find?_some (p := fun (x : Branch) => x.agentId == a) hb)

/-- `createBranch a` preserves the no-foreign-records invariant for `a`. -/
theorem branchInvariant_createBranch (a name : String) (s : MemState)
    (h : branchInvariant a s) : branchInvariant a (createBranch s a name) := by
  intro b hb hne
  rcases mem_setBranch hb with rfl | hb'
  · exact absurd rfl hne
  · exact h b hb' hne

/-- One `addMemory a` step preserves the no-foreign-records invariant for
`a` (the enriched record lands only in `a`'s own branch). -/
theorem branchInvariant_step (a : String) (st : MemState) (m : MemoryInput)
    (h : branchInvariant a st) :
    branchInvariant a (match addMemory st a m with
      | .ok st' => st'
      | .error _ => st) := by
  cases haa : addMemory st a m with
  | error e => exact h
  | ok st' =>
    cases hb : lookupBranch st a with
    | none => unfold addMemory at haa; rw [hb] at haa; simp at haa
    | some branch =>
      have hba : branch.agentId = a := agentId_of_lookup hb
      unfold addMemory at haa
      rw [hb] at haa
      simp only [] at haa
      split at haa <;> (
        simp only [Except.ok.injEq] at haa
        subst haa
        intro b hbm hne
        rcases mem_setBranch hbm with rfl | hb' )
      · exact absurd hba hne
      · exact h b hb' hne
      · exact absurd hba hne
      · exact h b hb' hne

/-- A whole sequence of `addMemory a` calls preserves the invariant. -/
theorem branchInvariant_appendRun (a : String) (s : MemState)
    (ms : List MemoryInput) (h : branchInvariant a s) :
    branchInvariant a (appendRun s a ms) := by
  induction ms generalizing s with
  | nil => exact h
  | cons m ms ih =>
    unfold appendRun
    exact ih _ (branchInvariant_step a s m h)

/-- C1 (corrected): `createBranch`, any sequence of `appendRecord` calls for
the agent, then `deleteBranch` leaves no branch for the agent and no
MemoryRecord attributable to the agent in any remaining branch — but
`deleteBranch` leaves the shared memory pool entirely unchanged, so
SharedMemoryEntries promoted from that agent remain. -/
theorem createBranch_append_delete_residuals (s : MemState) (a name : String)
    (ms : List MemoryInput)
    (h : ∀ b ∈ s.branches, ∀ r ∈ b.memories, r.agentId ≠ a) :
    let fin := deleteBranch (appendRun (createBranch s a name) a ms) a
    (∀ b ∈ fin.branches, b.agentId ≠ a) ∧
    (∀ b ∈ fin.branches, ∀ r ∈ b.memories, r.agentId ≠ a) ∧
    fin.sharedMemory = (appendRun (createBranch s a name) a ms).sharedMemory := by
  intro fin
  have hinv : branchInvariant a (appendRun (createBranch s a name) a ms) :=
    branchInvariant_appendRun a _ ms
      (branchInvariant_createBranch a name s (fun b hb _ => h b hb))
  refine ⟨?_, ?_, rfl⟩
  · intro b hb
    have hmf := List.mem_filter.mp hb
    simpa using hmf.2
  · intro b hb r hr
    have hmf := List.mem_filter.mp hb
    have hne : b.agentId ≠ a := by simpa using hmf.2
    exact hinv b hmf.1 hne r hr

/-- C1 witness: the residual theorem applied to a fresh store, one agent and
one appended record. -/
theorem createBranch_append_delete_residuals_witness :
    let fin :=
      deleteBranch (appendRun (createBranch emptyMem "a" "Agent A") "a" [longConv]) "a"
    (∀ b ∈ fin.branches, b.agentId ≠ "a") ∧
    (∀ b ∈ fin.branches, ∀ r ∈ b.memories, r.agentId ≠ "a") ∧
    fin.sharedMemory =
      (appendRun (createBranch emptyMem "a" "Agent A") "a" [longConv]).sharedMemory :=
  createBranch_append_delete_residuals emptyMem "a" "Agent A" [longConv]
    (fun b hb => absurd hb (List.not_mem_nil b))

/-- C1 counterexample: after create → one significant append → delete, the
branch map is empty but one SharedMemoryEntry with `source = "a"` survives
in the pool, refuting "no residual SharedMemoryEntry attributable to that
agent". -/
theorem deleteBranch_shared_residual_cex :
    (deleteBranch c1Mid "a").branches = [] ∧
    ((deleteBranch c1Mid "a").sharedMemory.filter
      (fun e => e.source == "a")).length = 1 := by
  decide

/-- C9 (corrected): `createBranch` on an id that already has a branch does
not fail — it silently replaces the existing branch with a fresh empty one
(discarding its records); lookups under other keys and the shared pool are
unchanged. -/
theorem createBranch_overwrites (s : MemState) (agentId agentName : String) :
    lookupBranch (createBranch s agentId agentName) agentId =
      some { agentId := agentId, agentName := agentName, memories := [],
             totalMemories := 0, totalConversations := 0 } ∧
    (createBranch s agentId agentName).sharedMemory = s.sharedMemory ∧
    ∀ k, k ≠ agentId →
      lookupBranch (createBranch s agentId agentName) k = lookupBranch s k := by
  refine ⟨?_, rfl, ?_⟩
  · simp only [lookupBranch, createBranch]
    exact find?_setBranch_self s.branches
      { agentId := agentId, agentName := agentName, memories := [],
        totalMemories := 0, totalConversations := 0 }
  · intro k hk
    simp only [lookupBranch, createBranch]
    exact find?_setBranch_other s.branches
      { agentId := agentId, agentName := agentName, memories := [],
        totalMemories := 0, totalConversations := 0 } k hk

/-- C9 witness: the overwrite theorem applied to a store already holding a
branch for `"a"` with one record. -/
theorem createBranch_overwrites_witness :
    lookupBranch (createBranch c9S1 "a" "Agent A") "b" = lookupBranch c9S1 "b" :=
  (createBranch_overwrites c9S1 "a" "Agent A").2.2 "b" (by decide)

/-- C9 counterexample: re-creating branch `"a"` raises no error and resets
the existing branch's records from one to zero, refuting both the
`DuplicateBranch` failure and "existing branch left unchanged". -/
theorem createBranch_duplicate_cex :
    (lookupBranch c9S1 "a").map (fun b => b.memories.length) = some 1 ∧
    (lookupBranch (createBranch c9S1 "a" "Agent A") "a").map
      (fun b => b.memories.length) = some 0 := by
  decide

/-- C6 (corrected): a conversation record appended via `addMemory` is copied
into the shared pool iff its combined request+response length exceeds 100
characters — the `important` flag plays no role for conversation records;
at the boundary, exactly 100 characters is not promoted and 101 is; the
original enriched record is appended to the owning branch in every case
(promotion copies). -/
theorem addMemory_conversation_promotion (s : MemState) (agentId : String)
    (m : MemoryInput) (b : Branch)
    (hb : lookupBranch s agentId = some b) (hconv : m.rtype = "conversation") :
    (∃ s', addMemory s agentId m = .ok s' ∧
      s'.sharedMemory =
        (if 100 < m.user.length + m.assistant.length
         then s.sharedMemory ++
           [{ record := enrich m agentId b.agentName, source := agentId }]
         else s.sharedMemory) ∧
      ∃ b', lookupBranch s' agentId = some b' ∧
        b'.memories = b.memories ++ [enrich m agentId b.agentName]) ∧
    c6Mid100.sharedMemory.length = 0 ∧ c6Mid101.sharedMemory.length = 1 := by
  refine ⟨?_, by decide, by decide⟩
  have hba : b.agentId = agentId := agentId_of_lookup hb
  have hsig : isSignificantMemory (enrich m agentId b.agentName) =
      decide (100 < m.user.length + m.assistant.length) := by
    simp [isSignificantMemory, enrich, hconv]
  simp only [addMemory, hb, hsig]
  by_cases hlen : 100 < m.user.length + m.assistant.length
  · rw [if_pos (by simpa using hlen)]
    refine ⟨_, rfl, by simp [hlen], ?_⟩
    refine ⟨{ b with
      memories := b.memories ++ [enrich m agentId b.agentName],
      totalMemories := b.totalMemories + 1,
      totalConversations := b.totalConversations +
        (if m.rtype == "conversation" then 1 else 0) }, ?_, rfl⟩
    simp only [lookupBranch]
    rw [← hba]
    exact find?_setBranch_self s.branches
      { agentId := b.agentId, agentName := b.agentName,
        memories := b.memories ++ [enrich m b.agentId b.agentName],
        totalMemories := b.totalMemories + 1,
        totalConversations := b.totalConversations +
          (if m.rtype == "conversation" then 1 else 0) }
  · rw [if_neg (by simpa using hlen)]
    refine ⟨_, rfl, by simp [hlen], ?_⟩
    refine ⟨{ b with
      memories := b.memories ++ [enrich m agentId b.agentName],
      totalMemories := b.totalMemories + 1,
      totalConversations := b.totalConversations +
        (if m.rtype == "conversation" then 1 else 0) }, ?_, rfl⟩
    simp only [lookupBranch]
    rw [← hba]
    exact find?_setBranch_self s.branches
      { agentId := b.agentId, agentName := b.agentName,
        memories := b.memories ++ [enrich m b.agentId b.agentName],
        totalMemories := b.totalMemories + 1,
        totalConversations := b.totalConversations +
          (if m.rtype == "conversation" then 1 else 0) }

/-- C6 witness: the promotion characterization applied to the 101-character
conversation in the singleton-branch store. -/
theorem addMemory_conversation_promotion_witness :
    (∃ s', addMemory c6State "a" longConv = .ok s' ∧
      s'.sharedMemory =
        (if 100 < longConv.user.length + longConv.assistant.length
         then c6State.sharedMemory ++
           [{ record := enrich longConv "a" c6Branch.agentName, source := "a" }]
         else c6State.sharedMemory) ∧
      ∃ b', lookupBranch s' "a" = some b' ∧
        b'.memories = c6Branch.memories ++ [enrich longConv "a" c6Branch.agentName]) ∧
    c6Mid100.sharedMemory.length = 0 ∧ c6Mid101.sharedMemory.length = 1 :=
  addMemory_conversation_promotion c6State "a" longConv c6Branch (by decide) rfl

/-- C6 counterexample: a short conversation record explicitly flagged
important is NOT promoted, refuting the claimed "length > 100 OR flagged
important" disjunction for conversation records. -/
theorem addMemory_important_not_promoted_cex :
    (addMemory c6State "a" shortImp).toOption = some c6ImpMid ∧
    ¬ ((c6ImpMid.sharedMemory.length = 1) ↔
        (100 < shortImp.user.length + shortImp.assistant.length ∨
         shortImp.important = true)) := by
  decide

/-- The search comparator is total. -/
theorem entryLE_total (a b : Nat × SharedEntry) :
    (entryLE a b || entryLE b a) = true := by
  simp only [entryLE, Bool.or_eq_true, Bool.and_eq_true, decide_eq_true_eq]
  omega

/-- The search comparator is transitive. -/
theorem entryLE_trans (a b c : Nat × SharedEntry)
    (hab : entryLE a b = true) (hbc : entryLE b c = true) :
    entryLE a c = true := by
  simp only [entryLE, Bool.or_eq_true, Bool.and_eq_true, decide_eq_true_eq] at *
  omega

/-- C7 (confirmed): `searchSharedMemory` returns at most `limit` entries,
every returned entry scores positive for the query (zero-score entries are
excluded) and comes from the pool, and the result is ordered by score
descending with ties broken by more recent timestamp first. -/
theorem getRelevantSharedMemories_spec (shared : List SharedEntry)
    (query : String) (limit : Nat) :
    (getRelevantSharedMemories shared query limit).length ≤ limit ∧
    (∀ e ∈ getRelevantSharedMemories shared query limit,
      0 < scoreEntry query e ∧ e ∈ shared) ∧
    (getRelevantSharedMemories shared query limit).Pairwise
      (fun a b => scoreEntry query b < scoreEntry query a ∨
        (scoreEntry query a = scoreEntry query b ∧
         b.record.timestamp ≤ a.record.timestamp)) := by
  have hmem : ∀ p ∈ ((shared.map
      (fun memory => (scoreEntry query memory, memory))).filter
        (fun p => decide (0 < p.1))).mergeSort entryLE,
      p.1 = scoreEntry query p.2 ∧ p.2 ∈ shared ∧ 0 < p.1 := by
    intro p hp
    have hp1 := List.mem_mergeSort.mp hp
    have hp2 := List.mem_filter.mp hp1
    obtain ⟨e, he, rfl⟩ := List.mem_map.mp hp2.1
    exact ⟨rfl, he, by simpa using hp2.2⟩
  refine ⟨?_, ?_, ?_⟩
  · rw [show getRelevantSharedMemories shared query limit =
      ((((shared.map (fun memory => (scoreEntry query memory, memory))).filter
        (fun p => decide (0 < p.1))).mergeSort entryLE).take limit).map
        (fun p => p.2) from rfl, List.length_map, List.length_take]
    exact min_le_left _ _
  · intro e he
    obtain ⟨p, hpt, rfl⟩ := List.mem_map.mp he
    obtain ⟨h1, h2, h3⟩ := hmem p (List.mem_of_mem_take hpt)
    exact ⟨h1 ▸ h3, h2⟩
  · have hsorted := List.sorted_mergeSort entryLE_trans entryLE_total
      ((shared.map (fun memory => (scoreEntry query memory, memory))).filter
        (fun p => decide (0 < p.1)))
    have htake := List.Pairwise.sublist (List.take_sublist limit _) hsorted
    refine List.pairwise_map.mpr (List.Pairwise.imp_of_mem ?_ htake)
    intro p q hp hq hpq
    obtain ⟨hp1, _, _⟩ := hmem p (List.mem_of_mem_take hp)
    obtain ⟨hq1, _, _⟩ := hmem q (List.mem_of_mem_take hq)
    simp only [entryLE, Bool.or_eq_true, Bool.and_eq_true, decide_eq_true_eq] at hpq
    rw [← hp1, ← hq1]
    exact hpq

/-- Concrete evaluation of the search on a two-entry pool: the matching
entry is returned, the zero-score entry is excluded. -/
theorem getRelevantSharedMemories_run :
    getRelevantSharedMemories [wE1, wE2] "Hello TEST" 5 = [wE1] := by
  have h1 : (([wE1, wE2].map
      (fun memory => (scoreEntry "Hello TEST" memory, memory))).filter
      (fun p => decide (0 < p.1))) = [(2, wE1)] := by decide
  show (((([wE1, wE2].map
      (fun memory => (scoreEntry "Hello TEST" memory, memory))).filter
      (fun p => decide (0 < p.1))).mergeSort entryLE).take 5).map
      (fun p => p.2) = [wE1]
  rw [h1, List.mergeSort_singleton]
  rfl

/-- C7 witness: the search specification applied to a concrete pool, query
and returned entry. -/
theorem getRelevantSharedMemories_spec_witness :
    0 < scoreEntry "Hello TEST" wE1 ∧ wE1 ∈ [wE1, wE2] :=
  (getRelevantSharedMemories_spec [wE1, wE2] "Hello TEST" 5).2.1 wE1
    (by rw [getRelevantSharedMemories_run]; exact List.mem_singleton_self wE1)

/-- C8 (corrected): `prepare` passes the snapshot through unchanged when its
serialized size fits the budget; otherwise it returns the single fixed
prioritized truncation (top-5 verified facts, top-3 recent conversations,
top-3 key insights, preferences unfiltered) — whose serialized size is NOT
guaranteed to fit the budget; the top-5 verified facts are preserved in
every case, before any key insights are dropped. -/
theorem prepareSyncData_trim (m : MemorySnapshot) (w : Nat) :
    (serializedSize m ≤ w → prepareSyncData m w = m) ∧
    (¬ serializedSize m ≤ w →
      prepareSyncData m w =
        { verified_facts := m.verified_facts.take 5,
          recent_conversations := m.recent_conversations.take 3,
          key_insights := m.key_insights.take 3,
          agent_preferences := m.agent_preferences }) ∧
    (prepareSyncData m w).verified_facts.take 5 = m.verified_facts.take 5 := by
  refine ⟨fun h => by simp [prepareSyncData, h],
    fun h => by simp [prepareSyncData, h], ?_⟩
  unfold prepareSyncData
  split
  · rfl
  · simp [List.take_take]

/-- C8 witness: the pass-through branch applied to a snapshot that fits its
budget. -/
theorem prepareSyncData_trim_witness :
    serializedSize c8SmallSnap ≤ 10000 ∧
    prepareSyncData c8SmallSnap 10000 = c8SmallSnap :=
  ⟨by decide, (prepareSyncData_trim c8SmallSnap 10000).1 (by decide)⟩

set_option maxRecDepth 4000 in
/-- C8 counterexample: a snapshot of six 300-character facts under a
100-byte budget is trimmed to the fixed truncation, whose serialized size
still exceeds the budget — refuting "returns a trimmed snapshot whose
serialized size is at most the budget". -/
theorem prepareSyncData_budget_cex :
    ¬ (serializedSize c8Snap ≤ 100) ∧
    100 < serializedSize (prepareSyncData c8Snap 100) := by
  decide

end MenePortal
